import Mathlib

/-!
Verification development for two excerpts of the `evalml` AutoML toolkit:

* `evalml/automl/engine/sequential_engine.py` — the synchronous sequential
  engine (`SequentialComputation`, `SequentialEngine`);
* `evalml/pipelines/components/transformers/preprocessing/polynomial_decomposer.py`
  — the `PolynomialDecomposer` time-series transformer.

The Python code is shallowly embedded as follows.

* Execution of a submitted work function is an observable event: stateful
  evaluation is threaded through an explicit call trace (a `List WorkKind`),
  and a function body performs a call exactly where the Python source does.
* Python exceptions are modelled with the `PyResult` error monad; the error
  value records the exception class (`ValueError`, `TypeError`, ...).
* Real-valued target data is modelled over `ℤ`: the decomposer only adds,
  subtracts, tiles and rolls data values, so exact integer arithmetic is an
  abstraction of float arithmetic that is closed under every operation the
  source performs.  The float argument `degree` of the constructor, whose
  claim is about `float.is_integer`, is modelled over `ℚ`.
* Third-party library calls that the source delegates to are abstracted:
  the fitted sktime `Detrender` is an arbitrary trend function over a
  series index (its `transform` subtracts, its `inverse_transform` adds the
  prediction at the series' own index, which is the sktime contract), and
  the seasonal component returned by statsmodels' `seasonal_decompose` is an
  arbitrary same-length series, universally quantified in the theorems.
  Library-internal validation (e.g. minimum-length checks) is not modelled;
  library calls are total.
* A pandas `DatetimeIndex` is modelled by its frequency tag and the day
  number of its first timestamp; a positional (`RangeIndex`) index by
  `SIndex.plain`.  A series with a datetime index of unknown frequency does
  not occur in any claim and is not modelled.
-/

/-- Kind of work function handed to a `SequentialComputation` by the three
`SequentialEngine.submit_*` methods (`evaluate_pipeline`, `train_pipeline`,
`pipeline.score`). -/
inductive WorkKind : Type
  | evaluate_pipeline
  | train_pipeline
  | pipeline_score
deriving DecidableEq

/-- A Python work function together with its identity: calling it appends its
`WorkKind` to the call trace, which makes the moment of execution
observable. -/
structure WorkFn (κ ρ : Type) : Type where
  kind : WorkKind
  fn : κ → ρ

/-- Embedding of the `SequentialComputation` object: `__init__` stores the
work function, its keyword arguments, and an empty `meta_data` dict (here:
the optional `pipeline_name` entry, the only key the source ever writes). -/
structure SequentialComputation (κ ρ : Type) : Type where
  work : WorkFn κ ρ
  kwargs : κ
  meta_data : Option String

/-- Embedding of `SequentialComputation.__init__(self, work, **kwargs)`: the
body only assigns `self.work`, `self.kwargs` and `self.meta_data = {}`; it
contains no call of `work`, so the call trace is returned unchanged. -/
def SequentialComputation.mkComp {κ ρ : Type} (work : WorkFn κ ρ) (kwargs : κ)
    (trace : List WorkKind) : SequentialComputation κ ρ × List WorkKind :=
  (⟨work, kwargs, none⟩, trace)

/-- Embedding of `SequentialComputation.done`, whose body is `return True`. -/
def SequentialComputation.done {κ ρ : Type} (_ : SequentialComputation κ ρ) : Bool :=
  true

/-- Embedding of `SequentialComputation.get_result`, whose body is
`return self.work(**self.kwargs)`: the stored work function is called here,
so the call event is appended to the trace here. -/
def SequentialComputation.get_result {κ ρ : Type} (c : SequentialComputation κ ρ)
    (trace : List WorkKind) : ρ × List WorkKind :=
  (c.work.fn c.kwargs, trace ++ [c.work.kind])

/-- Embedding of `SequentialComputation.cancel`, whose body is `return`: no
field is assigned and nothing is called. -/
def SequentialComputation.cancel {κ ρ : Type} (c : SequentialComputation κ ρ)
    (trace : List WorkKind) : SequentialComputation κ ρ × List WorkKind :=
  (c, trace)

/-- Embedding of `SequentialEngine.submit_evaluation_job`: builds a
`SequentialComputation` with `work=evaluate_pipeline` and the assembled
keyword arguments (pipeline, automl data, training data, logger — abstracted
into `kwargs : κ`, since `evaluate_pipeline` itself lives outside this
excerpt). -/
def SequentialEngine.submit_evaluation_job {κ ρ : Type} (evaluate_pipeline : κ → ρ)
    (kwargs : κ) (trace : List WorkKind) : SequentialComputation κ ρ × List WorkKind :=
  SequentialComputation.mkComp ⟨WorkKind.evaluate_pipeline, evaluate_pipeline⟩ kwargs trace

/-- Embedding of `SequentialEngine.submit_training_job`: builds a
`SequentialComputation` with `work=train_pipeline`. -/
def SequentialEngine.submit_training_job {κ ρ : Type} (train_pipeline : κ → ρ)
    (kwargs : κ) (trace : List WorkKind) : SequentialComputation κ ρ × List WorkKind :=
  SequentialComputation.mkComp ⟨WorkKind.train_pipeline, train_pipeline⟩ kwargs trace

/-- Embedding of `SequentialEngine.submit_scoring_job`: builds a
`SequentialComputation` with `work=pipeline.score`, then sets
`meta_data["pipeline_name"]`.  Like the other submit methods it performs no
call of the work function. -/
def SequentialEngine.submit_scoring_job {κ ρ : Type} (score : κ → ρ) (kwargs : κ)
    (pipeline_name : String) (trace : List WorkKind) :
    SequentialComputation κ ρ × List WorkKind :=
  let p := SequentialComputation.mkComp ⟨WorkKind.pipeline_score, score⟩ kwargs trace
  (⟨p.1.work, p.1.kwargs, some pipeline_name⟩, p.2)

/-- Python exception classes raised by the code under verification. -/
inductive PyErr : Type
  | valueError
  | typeError
  | attributeError
  | indexError
  | unboundLocalError
deriving DecidableEq

/-- Result of running a piece of Python code: a value or a raised
exception. -/
inductive PyResult (α : Type) : Type
  | ok (a : α)
  | raise (e : PyErr)
deriving DecidableEq

/-- Sequencing of fallible Python statements. -/
def PyResult.bind {α β : Type} : PyResult α → (α → PyResult β) → PyResult β
  | .ok a, f => f a
  | .raise e, _ => .raise e

/-- Pandas frequency strings occurring in this development (statsmodels'
`freq_to_period` table). -/
inductive Freq : Type
  | D
  | B
  | W
  | M
  | Q
  | A
  | H
deriving DecidableEq

/-- Embedding of statsmodels' `freq_to_period` on the modelled frequency
strings: daily 7, business-daily 5, weekly 52, monthly 12, quarterly 4,
annual 1, hourly 24. -/
def freq_to_period : Freq → Nat
  | .D => 7
  | .B => 5
  | .W => 52
  | .M => 12
  | .Q => 4
  | .A => 1
  | .H => 24

/-- Index of a pandas series: either a `DatetimeIndex` with an inferred
frequency and the day number of its first timestamp, or a positional
index. -/
inductive SIndex : Type
  | datetime (freqstr : Freq) (firstDay : Int)
  | plain
deriving DecidableEq

/-- A pandas series: an index together with the data values. -/
structure Series : Type where
  index : SIndex
  values : List Int
deriving DecidableEq

/-- Fitted sktime `Detrender(PolynomialTrendForecaster(degree))`: after
`fit`, it predicts a trend value at each position of a requested index.  The
polynomial fitting itself happens inside sktime, so the prediction is an
arbitrary function of the index and the position within it. -/
structure Detrender : Type where
  trendAt : SIndex → Nat → Int

/-- Embedding of sktime `Detrender.transform`: subtracts the predicted trend
at the series' own index from the series values. -/
def Detrender.transform (det : Detrender) (y : Series) : Series :=
  ⟨y.index, List.zipWith (fun i v => v - det.trendAt y.index i)
    (List.range y.values.length) y.values⟩

/-- Embedding of sktime `Detrender.inverse_transform`: adds the predicted
trend at the series' own index back to the series values. -/
def Detrender.inverse_transform (det : Detrender) (y : Series) : Series :=
  ⟨y.index, List.zipWith (fun i v => v + det.trendAt y.index i)
    (List.range y.values.length) y.values⟩

/-- The saved `self.seasonality` attribute: a pandas Series (with the day
number of its first timestamp) when fitted on datetime-indexed data, and a
bare numpy array (`np.zeros(len(y))`) otherwise. -/
inductive Seasonality : Type
  | series (firstDay : Int) (vals : List Int)
  | array (vals : List Int)
deriving DecidableEq

/-- Data values of a saved seasonality (`self.seasonality.T` works on both a
pandas Series and a numpy array). -/
def Seasonality.vals : Seasonality → List Int
  | .series _ v => v
  | .array v => v

/-- Embedding of `np.tile` on a one-dimensional array: `reps` concatenated
copies. -/
def npTile (xs : List Int) : Nat → List Int
  | 0 => []
  | r + 1 => xs ++ npTile xs r

/-- Embedding of `np.roll(xs, -k)` (left rotation by `k`). -/
def npRollNeg (xs : List Int) (k : Nat) : List Int :=
  match xs with
  | [] => []
  | _ :: _ => xs.drop (k % xs.length) ++ xs.take (k % xs.length)

/-- Embedding of a numpy elementwise binary operation between two
one-dimensional arrays, with numpy's broadcasting rule: equal lengths
operate elementwise, a length-one operand broadcasts, and any other pair of
lengths raises `ValueError` (operands could not be broadcast together). -/
def npBroadcastOp (f : Int → Int → Int) (a b : List Int) : PyResult (List Int) :=
  if a.length = b.length then .ok (List.zipWith f a b)
  else if b.length = 1 then .ok (a.map (fun x => f x (b.headD 0)))
  else if a.length = 1 then .ok (b.map (fun y => f (a.headD 0) y))
  else .raise .valueError

/-- Embedding of the Python `self` object of a `PolynomialDecomposer`.  The
`frequency` and `periodicity` attributes are `Option`s because the source
only assigns them on the datetime branch of `fit`; reading an unassigned
attribute raises `AttributeError`. -/
structure PolynomialDecomposer : Type where
  degree : Int
  detrender : Detrender
  frequency : Option Freq
  periodicity : Option Nat
  seasonality : Option Seasonality

/-- Python value passed as the `degree` argument of the constructor: an int,
a float (modelled over `ℚ`; `is_integer()` holds exactly when the
denominator is `1`), or an object of any other class (e.g. a string). -/
inductive PyVal : Type
  | int (n : Int)
  | float (q : ℚ)
  | str
deriving DecidableEq

/-- Freshly constructed (unfitted) decomposer with the given degree: no
`frequency`, `periodicity` or `seasonality` attribute exists yet, and the
prediction behaviour of the unfitted forecaster is irrelevant to every
claim (modelled as the zero function). -/
def PolynomialDecomposer.mkUnfitted (deg : Int) : PolynomialDecomposer :=
  ⟨deg, ⟨fun _ _ => 0⟩, none, none, none⟩

/-- Embedding of `PolynomialDecomposer.__init__`: if `degree` is not an
`int`, an integer-valued `float` is converted with `int(...)` and any other
value raises `TypeError`; the decomposer object is then built with that
degree. -/
def PolynomialDecomposer.init (degree : PyVal) : PyResult PolynomialDecomposer :=
  match degree with
  | .int n => .ok (PolynomialDecomposer.mkUnfitted n)
  | .float q =>
    if q.den = 1 then .ok (PolynomialDecomposer.mkUnfitted q.num)
    else .raise .typeError
  | .str => .raise .typeError

/-- Embedding of `PolynomialDecomposer.fit`.  `fitDetrender` is the result
of `self._component_obj.fit(y)` (the sktime polynomial fit, abstracted);
`seasonalOf` is the `seasonal` attribute of statsmodels'
`seasonal_decompose` on the detrended series (abstracted).  On a
datetime-indexed target the source saves the index frequency, its period
and the first period's worth of the seasonal signal (a pandas Series whose
index starts at the target's first timestamp); otherwise it saves
`np.zeros(len(y))`.  A `None` target raises `ValueError`. -/
def PolynomialDecomposer.fit {α : Type} (fitDetrender : Series → Detrender)
    (seasonalOf : Series → List Int) (d : PolynomialDecomposer) (_X : α)
    (y : Option Series) : PyResult PolynomialDecomposer :=
  match y with
  | none => .raise .valueError
  | some ys =>
    let det := fitDetrender ys
    match ys.index with
    | .datetime f d0 =>
      let p := freq_to_period f
      let seas := (seasonalOf (det.transform ys)).take p
      .ok ⟨d.degree, det, some f, some p, some (.series d0 seas)⟩
    | .plain =>
      .ok ⟨d.degree, det, d.frequency, d.periodicity,
        some (.array (List.replicate ys.values.length 0))⟩

/-- Embedding of `PolynomialDecomposer.transform`.  A `None` target is
returned unchanged together with `X`.  For a datetime-indexed target the
index frequency must equal the fitted frequency, else `ValueError`; the
target is then detrended with the fitted detrender and the saved first-period
seasonal signal, tiled to the length of the target, is subtracted (a
non-datetime index subtracts `np.zeros(len(y))`). -/
def PolynomialDecomposer.transform {α : Type} (d : PolynomialDecomposer) (X : α)
    (y : Option Series) : PyResult (α × Option Series) :=
  match y with
  | none => .ok (X, none)
  | some ys =>
    let freqCheck : PyResult Unit :=
      match ys.index with
      | .datetime f _ =>
        match d.frequency with
        | none => .raise .attributeError
        | some df => if f = df then .ok () else .raise .valueError
      | .plain => .ok ()
    PyResult.bind freqCheck (fun _ =>
      let y_detrended := d.detrender.transform ys
      let seasonalR : PyResult (List Int) :=
        match ys.index with
        | .datetime _ _ =>
          match d.seasonality with
          | none => .raise .attributeError
          | some s =>
            match d.periodicity with
            | none => .raise .attributeError
            | some p =>
              .ok ((npTile s.vals (y_detrended.values.length / p + 1)).take
                y_detrended.values.length)
        | .plain => .ok (List.replicate ys.values.length 0)
      PyResult.bind seasonalR (fun seasonal =>
        PyResult.bind (npBroadcastOp (fun a b => a - b) y_detrended.values seasonal)
          (fun vals => .ok (X, some ⟨ys.index, vals⟩))))

/-- Embedding of the `transform` method call viewed together with the
post-call state of `self`: the method body contains no assignment to `self`,
so the post-state is the receiver unchanged. -/
def PolynomialDecomposer.transformM {α : Type} (d : PolynomialDecomposer) (X : α)
    (y : Option Series) : PyResult (α × Option Series) × PolynomialDecomposer :=
  (d.transform X y, d)

/-- Embedding of the expression
`y_ww.index[0] - self.seasonality.index[0]` of `inverse_transform`, with
Python's evaluation order: an empty target raises `IndexError` on the left
operand; a missing `seasonality` attribute, or one holding a bare numpy
array (which has no `.index`), raises `AttributeError`; an empty saved
seasonality raises `IndexError`; finally, subtracting a `Timestamp` from the
positional integer label of a non-datetime index raises `TypeError`.  On
success the difference is returned in days. -/
def firstIndexDiff (ys : Series) (seas : Option Seasonality) : PyResult Int :=
  match ys.values with
  | [] => .raise .indexError
  | _ :: _ =>
    match seas with
    | none => .raise .attributeError
    | some (.array _) => .raise .attributeError
    | some (.series s0 svals) =>
      match svals with
      | [] => .raise .indexError
      | _ :: _ =>
        match ys.index with
        | .datetime _ y0 => .ok (y0 - s0)
        | .plain => .raise .typeError

/-- Embedding of `PolynomialDecomposer.inverse_transform`.  A `None` target
raises `ValueError`.  The fitted trend is added back, the offset of the
target's first timestamp into the seasonal cycle is computed, and the saved
seasonality, rolled by that offset and tiled to the target's length, is
added.  The local variables `delta` and `period` are only assigned under
`if self.frequency == "D"`, so any other fitted frequency raises
`UnboundLocalError` at their first use. -/
def PolynomialDecomposer.inverse_transform (d : PolynomialDecomposer)
    (y : Option Series) : PyResult Series :=
  match y with
  | none => .raise .valueError
  | some ys =>
    let y_retrended := d.detrender.inverse_transform ys
    PyResult.bind (firstIndexDiff ys d.seasonality) (fun diff =>
      match d.frequency with
      | none => .raise .attributeError
      | some f =>
        if f = Freq.D then
          match d.periodicity with
          | none => .raise .attributeError
          | some p =>
            match d.seasonality with
            | some (.series _ svals) =>
              let tfi := (diff.emod (p : Int)).toNat
              let seasonal := (npTile (npRollNeg svals tfi) (ys.values.length / p + 1)).take
                ys.values.length
              PyResult.bind (npBroadcastOp (fun a b => a + b) y_retrended.values seasonal)
                (fun vals => .ok ⟨ys.index, vals⟩)
            | _ => .raise .attributeError
        else .raise .unboundLocalError)

/-- Composition fit, then transform, then inverse_transform of the same
target series, as in the round-trip property of the decomposer. -/
def fitTransformInverse {α : Type} (fitDetrender : Series → Detrender)
    (seasonalOf : Series → List Int) (d : PolynomialDecomposer) (X : α)
    (y : Series) : PyResult Series :=
  PyResult.bind (PolynomialDecomposer.fit fitDetrender seasonalOf d X (some y))
    (fun df => PyResult.bind (df.transform X (some y)) (fun r =>
      match r.2 with
      | some yt => df.inverse_transform (some yt)
      | none => .raise .valueError))

/-- Claim C1, counterexample.  The claim states that the work function is
executed immediately at submission time.  Submitting a concrete evaluation
job starting from the empty call trace leaves the trace empty: no call of
the work function has happened at submission, whereas the claim requires the
trace to already contain the `evaluate_pipeline` call. -/
theorem c1_submission_executes_nothing_counterexample :
    (SequentialEngine.submit_evaluation_job (fun n : Int => n + 1) (0 : Int)
      ([] : List WorkKind)).2 = ([] : List WorkKind) ∧
    ([] : List WorkKind) ≠ [WorkKind.evaluate_pipeline] := by
  exact ⟨rfl, by decide⟩

/-- Claim C1, amended.  For every job submitted to `SequentialEngine`
(evaluation, training, or scoring), submission stores the work function and
its keyword arguments without executing anything (the call trace is
unchanged); the work function is executed when `get_result()` is called, and
`get_result()` returns exactly the result of applying the submitted work
function to the submitted keyword arguments. -/
theorem c1_work_runs_at_get_result (κ ρ : Type) (f : κ → ρ) (k : κ)
    (tr tr2 : List WorkKind) (pname : String) :
    (SequentialEngine.submit_evaluation_job f k tr).2 = tr ∧
    (SequentialEngine.submit_evaluation_job f k tr).1.get_result tr2 =
      (f k, tr2 ++ [WorkKind.evaluate_pipeline]) ∧
    (SequentialEngine.submit_training_job f k tr).2 = tr ∧
    (SequentialEngine.submit_training_job f k tr).1.get_result tr2 =
      (f k, tr2 ++ [WorkKind.train_pipeline]) ∧
    (SequentialEngine.submit_scoring_job f k pname tr).2 = tr ∧
    (SequentialEngine.submit_scoring_job f k pname tr).1.get_result tr2 =
      (f k, tr2 ++ [WorkKind.pipeline_score]) :=
  ⟨rfl, rfl, rfl, rfl, rfl, rfl⟩

/-- Claim C2.  For every `SequentialComputation`, `done()` returns `True`:
the result does not depend on the stored work function, its arguments, or
the call trace (so it is the same before and after any `get_result()`
call). -/
theorem c2_done_always_true (κ ρ : Type) (c : SequentialComputation κ ρ) :
    c.done = true :=
  rfl

/-- Claim C8.  `cancel()` on a `SequentialComputation` has no effect: it
returns the computation and the call trace unchanged (in particular the
`work`, `kwargs` and `meta_data` fields are unchanged), `done()` still
returns `True` afterwards, and `get_result()` still returns the result of
applying the submitted work function to the submitted keyword arguments. -/
theorem c8_cancel_is_noop (κ ρ : Type) (c : SequentialComputation κ ρ)
    (tr tr2 : List WorkKind) :
    c.cancel tr = (c, tr) ∧
    (c.cancel tr).1.done = true ∧
    (c.cancel tr).1.get_result tr2 = (c.work.fn c.kwargs, tr2 ++ [c.work.kind]) ∧
    (c.cancel tr).1.work = c.work ∧
    (c.cancel tr).1.kwargs = c.kwargs ∧
    (c.cancel tr).1.meta_data = c.meta_data :=
  ⟨rfl, rfl, rfl, rfl, rfl, rfl⟩

/-- Claim C7.  The `PolynomialDecomposer` constructor raises `TypeError`
exactly when the `degree` argument is neither an `int` nor a float with an
integral value, and an integer-valued float is accepted and converted to
the corresponding int. -/
theorem c7_degree_validated (v : PyVal) :
    (PolynomialDecomposer.init v = .raise .typeError ↔
      ¬ ((∃ n : Int, v = .int n) ∨ (∃ q : ℚ, v = .float q ∧ q.den = 1))) ∧
    (∀ q : ℚ, q.den = 1 →
      PolynomialDecomposer.init (.float q) = .ok (PolynomialDecomposer.mkUnfitted q.num)) := by
  constructor
  · cases v with
    | int n =>
      simp [PolynomialDecomposer.init]
    | float q =>
      by_cases h : q.den = 1 <;> simp [PolynomialDecomposer.init, h]
    | str =>
      simp [PolynomialDecomposer.init]
  · intro q hq
    simp [PolynomialDecomposer.init, hq]

/-- Claim C7, witness: a string degree raises `TypeError` and the
integer-valued float `2.0` is converted to the integer `2`. -/
theorem c7_degree_validated_witness :
    PolynomialDecomposer.init .str = .raise .typeError ∧
    PolynomialDecomposer.init (.float 2) =
      .ok (PolynomialDecomposer.mkUnfitted (2 : ℚ).num) :=
  ⟨(c7_degree_validated .str).1.mpr (by simp),
   (c7_degree_validated (.float 2)).2 2 rfl⟩

/-- Claim C9.  For every decomposer state and every `X`,
`transform` called with `y = None` does not raise: it returns the pair
`(X, None)` unchanged — in contrast to `fit` and `inverse_transform`, which
raise `ValueError` on a `None` target. -/
theorem c9_transform_none_passthrough {α : Type} (d dd : PolynomialDecomposer)
    (X : α) (fitDetrender : Series → Detrender) (seasonalOf : Series → List Int) :
    d.transform X (none : Option Series) = .ok (X, none) ∧
    PolynomialDecomposer.fit fitDetrender seasonalOf dd X (none : Option Series) =
      .raise .valueError ∧
    d.inverse_transform (none : Option Series) = .raise .valueError :=
  ⟨rfl, rfl, rfl⟩

/-- Every frequency in the `freq_to_period` table has a positive period. -/
lemma freq_to_period_pos (f : Freq) : 0 < freq_to_period f := by
  cases f <;> decide

/-- Length of a tiled array: `reps` copies. -/
lemma length_npTile (xs : List Int) (r : Nat) : (npTile xs r).length = r * xs.length := by
  induction r with
  | zero => simp [npTile]
  | succ n ih => simp [npTile, ih, Nat.succ_mul]; omega

/-- Tiling a length-`p` array `n / p + 1` times covers at least `n` elements,
so truncating to `n` yields exactly `n` elements. -/
lemma length_tile_take (xs : List Int) (p n : Nat) (hp : 0 < p) (hx : xs.length = p) :
    ((npTile xs (n / p + 1)).take n).length = n := by
  rw [List.length_take, length_npTile, hx]
  have h1 := Nat.div_add_mod n p
  have h2 := Nat.mod_lt n hp
  have h3 : (n / p + 1) * p = p * (n / p) + p := by ring
  omega

/-- Rolling preserves length. -/
lemma length_npRollNeg (xs : List Int) (k : Nat) : (npRollNeg xs k).length = xs.length := by
  cases xs with
  | nil => rfl
  | cons a l =>
    simp only [npRollNeg, List.length_append, List.length_drop, List.length_take]
    have : k % (a :: l).length < (a :: l).length := Nat.mod_lt k (by simp)
    omega

/-- Rolling by zero is the identity. -/
lemma npRollNeg_zero (xs : List Int) : npRollNeg xs 0 = xs := by
  cases xs with
  | nil => rfl
  | cons a l => simp [npRollNeg]

/-- Detrending preserves the length of the data. -/
lemma length_detrender_transform (det : Detrender) (y : Series) :
    (det.transform y).values.length = y.values.length := by
  simp [Detrender.transform]

/-- Re-adding the trend preserves the length of the data. -/
lemma length_detrender_inverse (det : Detrender) (y : Series) :
    (det.inverse_transform y).values.length = y.values.length := by
  simp [Detrender.inverse_transform]

/-- Adding back the trend and then a same-length signal to data from which
the trend and that signal were subtracted restores the original data. -/
lemma detrend_roundtrip (tr : Nat → Int) (ys T : List Int) (hT : T.length = ys.length) :
    List.zipWith (fun a b => a + b)
      (List.zipWith (fun i v => v + tr i)
        (List.range (List.zipWith (fun a b => a - b)
          (List.zipWith (fun i v => v - tr i) (List.range ys.length) ys) T).length)
        (List.zipWith (fun a b => a - b)
          (List.zipWith (fun i v => v - tr i) (List.range ys.length) ys) T)) T = ys := by
  apply List.ext_getElem
  · simp [hT]
  · intro i h1 h2
    simp [List.getElem_zipWith, List.getElem_range]
    omega

/-- Evaluation of the first-index difference when the target is a nonempty
datetime-indexed series and the saved seasonality is a nonempty pandas
Series: the difference of the two first timestamps, in days. -/
lemma firstIndexDiff_datetime (ys : Series) (f1 : Freq) (d1 : Int)
    (hy : ys.index = SIndex.datetime f1 d1) (hny : ys.values ≠ [])
    (s0 : Int) (svals : List Int) (hsv : svals ≠ []) :
    firstIndexDiff ys (some (.series s0 svals)) = .ok (d1 - s0) := by
  obtain ⟨v, vs, hv⟩ := List.exists_cons_of_ne_nil hny
  obtain ⟨w, ws, hw⟩ := List.exists_cons_of_ne_nil hsv
  simp [firstIndexDiff, hv, hw, hy]

/-- Evaluation of `inverse_transform` on a decomposer fitted with daily
frequency and a nonempty datetime-indexed target: the trend is added back
and the rolled, tiled seasonality is added. -/
lemma inverse_datetime_D_ok (deg : Int) (det : Detrender) (p : Nat) (s0 : Int)
    (svals : List Int) (hp : 0 < p) (hs : svals.length = p) (y : Series)
    (f1 : Freq) (d1 : Int) (hy : y.index = SIndex.datetime f1 d1)
    (hny : y.values ≠ []) :
    PolynomialDecomposer.inverse_transform
        ⟨deg, det, some Freq.D, some p, some (.series s0 svals)⟩ (some y) =
      .ok ⟨y.index, List.zipWith (fun a b => a + b) (det.inverse_transform y).values
        ((npTile (npRollNeg svals ((d1 - s0).emod (p : Int)).toNat)
          (y.values.length / p + 1)).take y.values.length)⟩ := by
  have hsv : svals ≠ [] := by
    intro h
    rw [h] at hs
    simp at hs
    omega
  have hroll : (npRollNeg svals ((d1 - s0).emod (p : Int)).toNat).length = p := by
    rw [length_npRollNeg, hs]
  have htile : y.values.length ≤ (npTile (npRollNeg svals ((d1 - s0).emod (p : Int)).toNat)
      (y.values.length / p + 1)).length := by
    rw [length_npTile, hroll]
    have h1 := Nat.div_add_mod y.values.length p
    have h2 := Nat.mod_lt y.values.length hp
    have h3 : (y.values.length / p + 1) * p = p * (y.values.length / p) + p := by ring
    omega
  simp [PolynomialDecomposer.inverse_transform,
    firstIndexDiff_datetime y f1 d1 hy hny s0 svals hsv,
    PyResult.bind, npBroadcastOp, length_detrender_inverse, htile, hy]

/-- Evaluation of `inverse_transform` when the fitted frequency is not
daily: the local variables `delta` and `period` are never assigned, so the
call raises `UnboundLocalError` (for a nonempty datetime-indexed target,
which survives the earlier first-index computation). -/
lemma inverse_nonD_unbound (deg : Int) (det : Detrender) (f0 : Freq)
    (hf : f0 ≠ Freq.D) (po : Option Nat) (s0 : Int) (svals : List Int)
    (hsv : svals ≠ []) (y : Series) (f1 : Freq) (d1 : Int)
    (hy : y.index = SIndex.datetime f1 d1) (hny : y.values ≠ []) :
    PolynomialDecomposer.inverse_transform ⟨deg, det, some f0, po, some (.series s0 svals)⟩
        (some y) = .raise .unboundLocalError := by
  simp [PolynomialDecomposer.inverse_transform,
    firstIndexDiff_datetime y f1 d1 hy hny s0 svals hsv, PyResult.bind, hf]

/-- Evaluation of `inverse_transform` on a non-datetime-indexed nonempty
target: subtracting the seasonality's first `Timestamp` from the integer
positional label raises `TypeError`, before the frequency test is ever
reached. -/
lemma inverse_plain_typeError (deg : Int) (det : Detrender) (fo : Option Freq)
    (po : Option Nat) (s0 : Int) (svals : List Int) (hsv : svals ≠ [])
    (y : Series) (hy : y.index = SIndex.plain) (hny : y.values ≠ []) :
    PolynomialDecomposer.inverse_transform ⟨deg, det, fo, po, some (.series s0 svals)⟩
        (some y) = .raise .typeError := by
  obtain ⟨v, vs, hv⟩ := List.exists_cons_of_ne_nil hny
  obtain ⟨w, ws, hw⟩ := List.exists_cons_of_ne_nil hsv
  simp [PolynomialDecomposer.inverse_transform, firstIndexDiff, hv, hw, hy,
    PyResult.bind]

/-- Evaluation of `inverse_transform` on an empty target: `y_ww.index[0]`
raises `IndexError` first. -/
lemma inverse_empty_indexError (d : PolynomialDecomposer) (y : Series)
    (hny : y.values = []) :
    d.inverse_transform (some y) = .raise .indexError := by
  simp [PolynomialDecomposer.inverse_transform, firstIndexDiff, hny, PyResult.bind]

/-- Evaluation of `transform` on a datetime-indexed target whose frequency
matches the fitted one: the target is detrended and the tiled first-period
seasonality is subtracted; `X` is passed through. -/
lemma transform_datetime_ok {α : Type} (X : α) (deg : Int) (det : Detrender)
    (f0 : Freq) (p : Nat) (s0 : Int) (svals : List Int) (hp : 0 < p)
    (hs : svals.length = p) (y : Series) (f1 : Freq) (d1 : Int)
    (hy : y.index = SIndex.datetime f1 d1) (hf : f1 = f0) :
    PolynomialDecomposer.transform ⟨deg, det, some f0, some p, some (.series s0 svals)⟩
        X (some y) =
      .ok (X, some ⟨y.index, List.zipWith (fun a b => a - b) (det.transform y).values
        ((npTile svals (y.values.length / p + 1)).take y.values.length)⟩) := by
  subst hf
  have hlen2 : (List.take y.values.length (npTile svals (y.values.length / p + 1))).length
      = y.values.length := length_tile_take svals p y.values.length hp hs
  simp [PolynomialDecomposer.transform, hy, PyResult.bind, Seasonality.vals,
    npBroadcastOp, length_detrender_transform, hlen2]

/-- Evaluation of `transform` on a non-datetime-indexed target: no frequency
check is performed and a zero vector is subtracted from the detrended
target; `X` is passed through. -/
lemma transform_plain_ok {α : Type} (X : α) (d : PolynomialDecomposer) (y : Series)
    (hy : y.index = SIndex.plain) :
    d.transform X (some y) =
      .ok (X, some ⟨y.index, List.zipWith (fun a b => a - b) (d.detrender.transform y).values
        (List.replicate y.values.length 0)⟩) := by
  simp [PolynomialDecomposer.transform, hy, PyResult.bind, npBroadcastOp,
    length_detrender_transform]

/-- Sequencing after a successful statement runs the continuation. -/
@[simp] lemma PyResult.bind_ok {α β : Type} (a : α) (f : α → PyResult β) :
    PyResult.bind (.ok a) f = f a := rfl

/-- An exception propagates past the rest of the statements. -/
@[simp] lemma PyResult.bind_raise {α β : Type} (e : PyErr) (f : α → PyResult β) :
    PyResult.bind (.raise e) f = .raise e := rfl

/-- Evaluation of `fit` on a datetime-indexed target: the detrender is
fitted and the frequency, its period, and the first period's worth of the
seasonal signal are saved. -/
lemma fit_datetime_eq {α : Type} (fd : Series → Detrender) (sd : Series → List Int)
    (dd : PolynomialDecomposer) (X : α) (yf : Series) (f0 : Freq) (d0 : Int)
    (hyf : yf.index = SIndex.datetime f0 d0) :
    PolynomialDecomposer.fit fd sd dd X (some yf) =
      .ok ⟨dd.degree, fd yf, some f0, some (freq_to_period f0),
        some (.series d0 ((sd ((fd yf).transform yf)).take (freq_to_period f0)))⟩ := by
  simp [PolynomialDecomposer.fit, hyf]

/-- When the fitted series is at least one period long, the saved
seasonality holds exactly one period's worth of values. -/
lemma fit_seas_length (fd : Series → Detrender) (sd : Series → List Int) (yf : Series)
    (f0 : Freq) (hS : (sd ((fd yf).transform yf)).length = yf.values.length)
    (hplen : freq_to_period f0 ≤ yf.values.length) :
    ((sd ((fd yf).transform yf)).take (freq_to_period f0)).length = freq_to_period f0 := by
  rw [List.length_take, hS]
  omega

/-- Zero is left absorbing for the euclidean remainder. -/
lemma int_emod_zero (n : Int) : Int.emod 0 n = 0 := Int.zero_emod n

/-- Core of the round-trip property: applying `inverse_transform` to the
output of `transform` on the same daily series restores the original
values — the first-index offset is zero, so the seasonality is rolled by
zero and the very signal that `transform` subtracted is added back, along
with the trend. -/
lemma inverse_undoes_transform (det : Detrender) (deg : Int) (p : Nat) (d0 : Int)
    (svals : List Int) (hp : 0 < p) (hs : svals.length = p) (yv : List Int)
    (hny : yv ≠ []) :
    PolynomialDecomposer.inverse_transform
        ⟨deg, det, some Freq.D, some p, some (.series d0 svals)⟩
        (some ⟨SIndex.datetime Freq.D d0,
          List.zipWith (fun a b => a - b)
            (det.transform ⟨SIndex.datetime Freq.D d0, yv⟩).values
            ((npTile svals (yv.length / p + 1)).take yv.length)⟩) =
      .ok ⟨SIndex.datetime Freq.D d0, yv⟩ := by
  have hT : ((npTile svals (yv.length / p + 1)).take yv.length).length = yv.length :=
    length_tile_take svals p yv.length hp hs
  have hW : (List.zipWith (fun a b => a - b)
      (det.transform ⟨SIndex.datetime Freq.D d0, yv⟩).values
      ((npTile svals (yv.length / p + 1)).take yv.length)).length = yv.length := by
    rw [List.length_zipWith, length_detrender_transform, hT]
    simp
  have hnW : (List.zipWith (fun a b => a - b)
      (det.transform ⟨SIndex.datetime Freq.D d0, yv⟩).values
      ((npTile svals (yv.length / p + 1)).take yv.length)) ≠ [] := by
    apply List.ne_nil_of_length_pos
    rw [hW]
    exact List.length_pos.mpr hny
  rw [inverse_datetime_D_ok deg det p d0 svals hp hs _ Freq.D d0 rfl hnW]
  simp only [sub_self, int_emod_zero, Int.toNat_zero, npRollNeg_zero]
  rw [hW]
  simp only [Detrender.inverse_transform, Detrender.transform]
  exact congrArg (fun l => PyResult.ok (⟨SIndex.datetime Freq.D d0, l⟩ : Series))
    (detrend_roundtrip (Detrender.trendAt det (SIndex.datetime Freq.D d0)) yv
      ((npTile svals (yv.length / p + 1)).take yv.length) hT)

/-- Claim C4.  For every series `y` with a daily-frequency `DatetimeIndex`
(long enough for a successful fit: at least one seasonal period, with the
statsmodels seasonal output having the length of its input), fitting the
decomposer on `y` and then applying `transform` followed by
`inverse_transform` returns the original series exactly. -/
theorem c4_round_trip {α : Type} (fd : Series → Detrender) (sd : Series → List Int)
    (dd : PolynomialDecomposer) (X : α) (y : Series) (d0 : Int)
    (hidx : y.index = SIndex.datetime Freq.D d0)
    (hS : (sd ((fd y).transform y)).length = y.values.length)
    (hlen : 7 ≤ y.values.length) :
    fitTransformInverse fd sd dd X y = .ok y := by
  obtain ⟨yi, yv⟩ := y
  simp only at hidx hS hlen
  subst hidx
  have hp : 0 < freq_to_period Freq.D := freq_to_period_pos Freq.D
  have hplen : freq_to_period Freq.D ≤ yv.length := hlen
  have hs := fit_seas_length fd sd ⟨SIndex.datetime Freq.D d0, yv⟩ Freq.D hS hplen
  have hny : yv ≠ [] := by
    apply List.ne_nil_of_length_pos
    omega
  unfold fitTransformInverse
  rw [fit_datetime_eq fd sd dd X ⟨SIndex.datetime Freq.D d0, yv⟩ Freq.D d0 rfl,
    PyResult.bind_ok]
  rw [transform_datetime_ok X dd.degree (fd ⟨SIndex.datetime Freq.D d0, yv⟩) Freq.D
    (freq_to_period Freq.D) d0 _ hp hs ⟨SIndex.datetime Freq.D d0, yv⟩ Freq.D d0 rfl rfl,
    PyResult.bind_ok]
  exact inverse_undoes_transform (fd ⟨SIndex.datetime Freq.D d0, yv⟩) dd.degree
    (freq_to_period Freq.D) d0 _ hp hs yv hny

/-- Claim C3.  For every series `y` accepted by `transform` after `fit`
(i.e. whose frequency, when `y` is datetime-indexed, matches the fitted
one), the returned target equals the polynomial-detrended series minus the
fitted first-period seasonal signal tiled to the length of `y`; when `y`'s
index is not a `DatetimeIndex` the subtracted seasonal signal is the zero
vector; and the input features `X` are returned without modification. -/
theorem c3_transform_detrends_and_deseasonalizes {α : Type} (fd : Series → Detrender)
    (sd : Series → List Int) (dd : PolynomialDecomposer) (X : α) (yf : Series)
    (f0 : Freq) (d0 : Int) (hyf : yf.index = SIndex.datetime f0 d0)
    (hS : (sd ((fd yf).transform yf)).length = yf.values.length)
    (hplen : freq_to_period f0 ≤ yf.values.length)
    (d : PolynomialDecomposer)
    (hfit : PolynomialDecomposer.fit fd sd dd X (some yf) = .ok d)
    (y : Series)
    (hmatch : ∀ f1 d1, y.index = SIndex.datetime f1 d1 → f1 = f0) :
    d.transform X (some y) = .ok (X, some ⟨y.index,
      List.zipWith (fun a b => a - b) (d.detrender.transform y).values
        (match y.index with
         | SIndex.datetime _ _ =>
           (npTile ((sd ((fd yf).transform yf)).take (freq_to_period f0))
             (y.values.length / freq_to_period f0 + 1)).take y.values.length
         | SIndex.plain => List.replicate y.values.length 0)⟩) := by
  rw [fit_datetime_eq fd sd dd X yf f0 d0 hyf] at hfit
  simp only [PyResult.ok.injEq] at hfit
  subst hfit
  cases hidx : y.index with
  | datetime f1 d1 =>
    have hf := hmatch f1 d1 hidx
    rw [transform_datetime_ok X dd.degree (fd yf) f0 (freq_to_period f0) d0 _
      (freq_to_period_pos f0) (fit_seas_length fd sd yf f0 hS hplen) y f1 d1 hidx hf]
    simp [hidx]
  | plain =>
    rw [transform_plain_ok X _ y hidx]
    simp [hidx]

/-- Claim C5.  For a decomposer fitted on a datetime-indexed series,
`fit` and `inverse_transform` raise `ValueError` exactly when the target
`y` is `None`: for every non-`None` target neither raises that error
(`inverse_transform` may raise errors of other classes, but never
`ValueError`). -/
theorem c5_value_error_iff_y_none {α : Type} (fd : Series → Detrender)
    (sd : Series → List Int) (dd : PolynomialDecomposer) (X : α) (yf : Series)
    (f0 : Freq) (d0 : Int) (hyf : yf.index = SIndex.datetime f0 d0)
    (hS : (sd ((fd yf).transform yf)).length = yf.values.length)
    (hplen : freq_to_period f0 ≤ yf.values.length)
    (d : PolynomialDecomposer)
    (hfit : PolynomialDecomposer.fit fd sd dd X (some yf) = .ok d) :
    (∀ y2 : Option Series,
      PolynomialDecomposer.fit fd sd dd X y2 = .raise .valueError ↔ y2 = none) ∧
    (∀ y2 : Option Series,
      d.inverse_transform y2 = .raise .valueError ↔ y2 = none) := by
  have hsv : ((sd ((fd yf).transform yf)).take (freq_to_period f0)) ≠ [] := by
    apply List.ne_nil_of_length_pos
    rw [fit_seas_length fd sd yf f0 hS hplen]
    exact freq_to_period_pos f0
  rw [fit_datetime_eq fd sd dd X yf f0 d0 hyf] at hfit
  simp only [PyResult.ok.injEq] at hfit
  subst hfit
  constructor
  · intro y2
    cases y2 with
    | none => simp [PolynomialDecomposer.fit]
    | some ys =>
      cases hi : ys.index with
      | datetime f1 d1 => rw [fit_datetime_eq fd sd dd X ys f1 d1 hi]; simp
      | plain => simp [PolynomialDecomposer.fit, hi]
  · intro y2
    cases y2 with
    | none => simp [PolynomialDecomposer.inverse_transform]
    | some ys =>
      simp only [iff_false, reduceCtorEq]
      by_cases hv : ys.values = []
      · rw [inverse_empty_indexError _ ys hv]
        simp
      · cases hi : ys.index with
        | plain =>
          rw [inverse_plain_typeError dd.degree (fd yf) _ _ d0 _ hsv ys hi hv]
          simp
        | datetime f1 d1 =>
          by_cases hD : f0 = Freq.D
          · subst hD
            rw [inverse_datetime_D_ok dd.degree (fd yf) (freq_to_period Freq.D) d0 _
              (freq_to_period_pos Freq.D) (fit_seas_length fd sd yf Freq.D hS hplen)
              ys f1 d1 hi hv]
            simp
          · rw [inverse_nonD_unbound dd.degree (fd yf) f0 hD _ d0 _ hsv ys f1 d1 hi hv]
            simp

/-- Claim C6.  For every fitted decomposer (fitted on a datetime-indexed
series) and every non-`None` datetime-indexed series `y`, `transform`
raises `ValueError` if and only if the frequency of `y`'s index differs
from the fitted frequency, and the fitted state (`frequency`,
`periodicity`, `seasonality`) is unchanged by the call. -/
theorem c6_transform_frequency_check {α : Type} (fd : Series → Detrender)
    (sd : Series → List Int) (dd : PolynomialDecomposer) (X : α) (yf : Series)
    (f0 : Freq) (d0 : Int) (hyf : yf.index = SIndex.datetime f0 d0)
    (hS : (sd ((fd yf).transform yf)).length = yf.values.length)
    (hplen : freq_to_period f0 ≤ yf.values.length)
    (d : PolynomialDecomposer)
    (hfit : PolynomialDecomposer.fit fd sd dd X (some yf) = .ok d)
    (y : Series) (f1 : Freq) (d1 : Int) (hy : y.index = SIndex.datetime f1 d1) :
    (d.transform X (some y) = .raise .valueError ↔ f1 ≠ f0) ∧
    (d.transformM X (some y)).2.frequency = d.frequency ∧
    (d.transformM X (some y)).2.periodicity = d.periodicity ∧
    (d.transformM X (some y)).2.seasonality = d.seasonality := by
  refine ⟨?_, rfl, rfl, rfl⟩
  rw [fit_datetime_eq fd sd dd X yf f0 d0 hyf] at hfit
  simp only [PyResult.ok.injEq] at hfit
  subst hfit
  constructor
  · intro hraise
    intro heq
    rw [transform_datetime_ok X dd.degree (fd yf) f0 (freq_to_period f0) d0 _
      (freq_to_period_pos f0) (fit_seas_length fd sd yf f0 hS hplen) y f1 d1 hy heq]
      at hraise
    exact absurd hraise (by simp)
  · intro hne
    simp [PolynomialDecomposer.transform, hy, PyResult.bind, hne]

/-- Claim C10, amended.  For every decomposer fitted on a datetime-indexed
series of any frequency other than daily, `inverse_transform` fails with an
unbound-local-variable error (`delta` and `period` are never assigned) for
every non-`None` target that has a nonempty `DatetimeIndex`; for a
non-datetime-indexed or empty target an earlier `TypeError`/`IndexError`
is raised instead at the first-index computation. -/
theorem c10_inverse_unbound_for_nonD {α : Type} (fd : Series → Detrender)
    (sd : Series → List Int) (dd : PolynomialDecomposer) (X : α) (yf : Series)
    (f0 : Freq) (d0 : Int) (hyf : yf.index = SIndex.datetime f0 d0)
    (hf : f0 ≠ Freq.D)
    (hS : (sd ((fd yf).transform yf)).length = yf.values.length)
    (hplen : freq_to_period f0 ≤ yf.values.length)
    (d : PolynomialDecomposer)
    (hfit : PolynomialDecomposer.fit fd sd dd X (some yf) = .ok d)
    (y : Series) (f1 : Freq) (d1 : Int) (hy : y.index = SIndex.datetime f1 d1)
    (hny : y.values ≠ []) :
    d.inverse_transform (some y) = .raise .unboundLocalError := by
  have hsv : ((sd ((fd yf).transform yf)).take (freq_to_period f0)) ≠ [] := by
    apply List.ne_nil_of_length_pos
    rw [fit_seas_length fd sd yf f0 hS hplen]
    exact freq_to_period_pos f0
  rw [fit_datetime_eq fd sd dd X yf f0 d0 hyf] at hfit
  simp only [PyResult.ok.injEq] at hfit
  subst hfit
  exact inverse_nonD_unbound dd.degree (fd yf) f0 hf _ d0 _ hsv y f1 d1 hy hny

/-- Claim C10, counterexample.  The claim as stated asserts an
unbound-variable failure for every non-`None` `y` once the decomposer is
fitted on a non-daily frequency.  Fitting on a weekly series and calling
`inverse_transform` on the plain-indexed series `[5]` instead raises
`TypeError` at `y_ww.index[0] - self.seasonality.index[0]` (an integer
label minus a `Timestamp`), which is reached before the daily-frequency
test. -/
theorem c10_counterexample :
    PyResult.bind
      (PolynomialDecomposer.fit (fun _ => ⟨fun _ _ => 0⟩) (fun s => s.values)
        (PolynomialDecomposer.mkUnfitted 1) ()
        (some ⟨SIndex.datetime Freq.W 0, [1, 2]⟩))
      (fun d => d.inverse_transform (some ⟨SIndex.plain, [5]⟩)) =
      .raise .typeError ∧
    PyErr.typeError ≠ PyErr.unboundLocalError := by
  exact ⟨by decide, by decide⟩

/-- Claim C3, witness: a concrete fitted decomposer (daily frequency,
seasonality `[1..7]`, zero trend) transforms the matching daily series
`[10, 20]` into `[10 - 1, 20 - 2] = [9, 18]`. -/
theorem c3_witness :
    PolynomialDecomposer.transform
      (⟨1, ⟨fun _ _ => 0⟩, some Freq.D, some 7,
        some (.series 0 [1, 2, 3, 4, 5, 6, 7])⟩ : PolynomialDecomposer) ()
      (some ⟨SIndex.datetime Freq.D 3, [10, 20]⟩) =
      .ok ((), some ⟨SIndex.datetime Freq.D 3, [9, 18]⟩) := by
  have h := c3_transform_detrends_and_deseasonalizes (fun _ => ⟨fun _ _ => 0⟩)
    (fun s => s.values) (PolynomialDecomposer.mkUnfitted 1) ()
    ⟨SIndex.datetime Freq.D 0, [1, 2, 3, 4, 5, 6, 7]⟩ Freq.D 0 rfl rfl (by decide)
    ⟨1, ⟨fun _ _ => 0⟩, some Freq.D, some 7, some (.series 0 [1, 2, 3, 4, 5, 6, 7])⟩ rfl
    ⟨SIndex.datetime Freq.D 3, [10, 20]⟩
    (fun f1 d1 hh => by injection hh with h1 h2; exact h1.symm)
  exact h.trans (by decide)

/-- Claim C4, witness: the daily series `[3, 1, 4, 1, 5, 9, 2]` with the
trend predicting the position index survives the fit/transform/inverse
round trip unchanged. -/
theorem c4_witness :
    7 ≤ ([3, 1, 4, 1, 5, 9, 2] : List Int).length ∧
    fitTransformInverse (fun _ => ⟨fun _ i => (i : Int)⟩) (fun s => s.values)
      (PolynomialDecomposer.mkUnfitted 1) ()
      ⟨SIndex.datetime Freq.D 0, [3, 1, 4, 1, 5, 9, 2]⟩ =
      .ok ⟨SIndex.datetime Freq.D 0, [3, 1, 4, 1, 5, 9, 2]⟩ :=
  ⟨by decide, c4_round_trip (fun _ => ⟨fun _ i => (i : Int)⟩) (fun s => s.values)
    (PolynomialDecomposer.mkUnfitted 1) () ⟨SIndex.datetime Freq.D 0, [3, 1, 4, 1, 5, 9, 2]⟩
    0 rfl rfl (by decide)⟩

/-- Claim C5, witness: on the concrete fitted decomposer,
`inverse_transform` of the non-`None` plain-indexed series `[5]` does not
raise `ValueError` (both sides of the instantiated equivalence are
false). -/
theorem c5_witness :
    PolynomialDecomposer.inverse_transform
      (⟨1, ⟨fun _ _ => 0⟩, some Freq.D, some 7,
        some (.series 0 [1, 2, 3, 4, 5, 6, 7])⟩ : PolynomialDecomposer)
      (some ⟨SIndex.plain, [5]⟩) = .raise .valueError ↔
      some (⟨SIndex.plain, [5]⟩ : Series) = none :=
  (c5_value_error_iff_y_none (fun _ => ⟨fun _ _ => 0⟩) (fun s => s.values)
    (PolynomialDecomposer.mkUnfitted 1) ()
    ⟨SIndex.datetime Freq.D 0, [1, 2, 3, 4, 5, 6, 7]⟩ Freq.D 0 rfl rfl (by decide)
    ⟨1, ⟨fun _ _ => 0⟩, some Freq.D, some 7, some (.series 0 [1, 2, 3, 4, 5, 6, 7])⟩
    rfl).2 (some ⟨SIndex.plain, [5]⟩)

/-- Claim C6, witness: transforming a weekly series with a decomposer
fitted on a daily series raises `ValueError`, matching the frequency
mismatch. -/
theorem c6_witness :
    (PolynomialDecomposer.transform
      (⟨1, ⟨fun _ _ => 0⟩, some Freq.D, some 7,
        some (.series 0 [1, 2, 3, 4, 5, 6, 7])⟩ : PolynomialDecomposer) ()
      (some ⟨SIndex.datetime Freq.W 9, [5]⟩) = .raise .valueError) ↔ Freq.W ≠ Freq.D :=
  (c6_transform_frequency_check (fun _ => ⟨fun _ _ => 0⟩) (fun s => s.values)
    (PolynomialDecomposer.mkUnfitted 1) ()
    ⟨SIndex.datetime Freq.D 0, [1, 2, 3, 4, 5, 6, 7]⟩ Freq.D 0 rfl rfl (by decide)
    ⟨1, ⟨fun _ _ => 0⟩, some Freq.D, some 7, some (.series 0 [1, 2, 3, 4, 5, 6, 7])⟩
    rfl ⟨SIndex.datetime Freq.W 9, [5]⟩ Freq.W 9 rfl).1

/-- Claim C10 (amended), witness: a decomposer fitted on an annual-frequency
series raises `UnboundLocalError` on a nonempty datetime-indexed target. -/
theorem c10_witness :
    PolynomialDecomposer.inverse_transform
      (⟨1, ⟨fun _ _ => 0⟩, some Freq.A, some 1, some (.series 0 [4])⟩ :
        PolynomialDecomposer)
      (some ⟨SIndex.datetime Freq.D 5, [9]⟩) = .raise .unboundLocalError :=
  c10_inverse_unbound_for_nonD (fun _ => ⟨fun _ _ => 0⟩) (fun s => s.values)
    (PolynomialDecomposer.mkUnfitted 1) () ⟨SIndex.datetime Freq.A 0, [4]⟩ Freq.A 0 rfl
    (by decide) rfl (by decide)
    ⟨1, ⟨fun _ _ => 0⟩, some Freq.A, some 1, some (.series 0 [4])⟩ rfl
    ⟨SIndex.datetime Freq.D 5, [9]⟩ Freq.D 5 rfl (by decide)
